import Mathlib

/-!
Verification of the UART DMA ring-buffer drain algorithm from
`src/main.c` (Infineon mtb-example-xmc-dma-ring-buffer).

The consumer side of the ring buffer is `SysTick_Handler`: it keeps a
retained offset `start` (a `static` local), samples the producer's
current write offset `end`, and emits the unread bytes to the UART sink
via `uart_transmit`, in one span when `start < end`, in two spans
(`[start, N)` then `[0, end)`) when the write position wrapped, and in
no span when `start == end`.  We embed the handler shallowly: buffer
contents are a function `Nat → Nat` (byte at each offset), the sink
trace is the list of spans `(offset, length)` handed to `uart_transmit`
in call order, and the emitted byte stream is the concatenation of the
spans' bytes.  All arithmetic in the C code is `uint32_t`; in every
branch the guards ensure the subtractions `end - start` and
`RING_BUFFER_SIZE - start` do not underflow whenever the offsets are in
range, so natural-number subtraction agrees with the machine arithmetic
under the range hypotheses of the theorems below.
-/

namespace DmaRingBuffer

/-- `RING_BUFFER_SIZE` from `src/main.c` line 58: the capacity `N` of the
ring buffer in the shipped configuration.  The drain algorithm itself is
uniform in the capacity, so the definitions below take `N` as a
parameter; this constant records the concrete instantiation. -/
def RING_BUFFER_SIZE : Nat := 4096

/-- Shallow embedding of `uart_transmit` (`src/main.c` lines 103-109).
The C function walks the pointer `data` forward `len` times, transmitting
one byte per step; we model the pointed-to memory as a function from the
index (offset from `data`) to the byte, and return the transmitted bytes
in transmission order. -/
def uart_transmit (data : Nat → Nat) (len : Nat) : List Nat :=
  (List.range len).map data

/-- The pure core of `SysTick_Handler` (`src/main.c` lines 127-160).
Input: the capacity `N`, the retained consumer offset `start` and the
sampled producer offset `endv` (the C local `end`).  Output: the list of
spans `(offset, length)` passed to `uart_transmit`, in call order, and
the value of the `static` variable `start` after the handler returns.
The branch structure mirrors the C code: outer `if (start != end)`,
inner `if (start < end)` (single span `(start, end - start)`) with the
`else` wrap case emitting `(start, RING_BUFFER_SIZE - start)` then
`(0, end)`, followed by `start = end`. -/
def drain (N start endv : Nat) : List (Nat × Nat) × Nat :=
  if start ≠ endv then
    if start < endv then
      ([(start, endv - start)], endv)
    else
      ([(start, N - start), (0, endv)], endv)
  else
    ([], start)

/-- The bytes a single span hands to the sink: `uart_transmit` is called
with the pointer `&ring_buffer[offset]`, i.e. the memory function
`fun i => buf (offset + i)`, and the span's length. -/
def spanBytes (buf : Nat → Nat) (sp : Nat × Nat) : List Nat :=
  uart_transmit (fun i => buf (sp.1 + i)) sp.2

/-- The full byte stream one drain invocation emits to the sink, in
emission order: the concatenation of the bytes of each span, in span
order. -/
def drainBytes (N : Nat) (buf : Nat → Nat) (start endv : Nat) : List Nat :=
  (((drain N start endv).1).map (spanBytes buf)).flatten

/-- Every buffer offset a drain invocation reads (dereferences), across
all its spans: span `(o, l)` reads offsets `o, o+1, ..., o+l-1`. -/
def drainReadOffsets (N start endv : Nat) : List Nat :=
  (((drain N start endv).1).map
    (fun sp => (List.range sp.2).map (fun i => sp.1 + i))).flatten

/-- The state visible to `SysTick_Handler`: the ring-buffer contents
(written only by DMA), the DMA transferred-data counter that
`XMC_DMA_CH_GetTransferredData` returns (the sampled `end`), and the
handler's own `static uint32_t start`. -/
structure SysState where
  ring_buffer : Nat → Nat
  transferred : Nat
  start : Nat

/-- `SysTick_Handler` as a state transformer: it samples `end` from the
DMA counter, runs the drain logic, stores the new `start`, and produces
the span trace.  The C handler writes no other state. -/
def SysTick_Handler (N : Nat) (s : SysState) : SysState × List (Nat × Nat) :=
  let r := drain N s.start s.transferred
  ({ s with start := r.2 }, r.1)

/-- Modelled from the spec (section 3): the circular half-open region
from `start` to `endv` in a capacity-`N` store, as a byte list in write
order.  When `start ≤ endv` it is the linear region `[start, endv)`;
otherwise it wraps: `[start, N)` followed by `[0, endv)`.  This is the
spec-side description of what a drain must emit, to be compared with
`drainBytes` computed from the code. -/
def circularRegionBytes (N : Nat) (buf : Nat → Nat) (start endv : Nat) :
    List Nat :=
  if start ≤ endv then
    (List.range (endv - start)).map (fun i => buf (start + i))
  else
    (List.range (N - start)).map (fun i => buf (start + i)) ++
      (List.range endv).map buf

/-! ### Branch lemmas for `drain` -/

theorem drain_self (N s : Nat) : drain N s s = ([], s) := by
  simp [drain]

theorem drain_of_lt (N : Nat) {start endv : Nat} (h : start < endv) :
    drain N start endv = ([(start, endv - start)], endv) := by
  simp [drain, Nat.ne_of_lt h, h]

theorem drain_of_gt (N : Nat) {start endv : Nat} (h : endv < start) :
    drain N start endv = ([(start, N - start), (0, endv)], endv) := by
  have h1 : start ≠ endv := (Nat.ne_of_lt h).symm
  have h2 : ¬ start < endv := Nat.not_lt.mpr (Nat.le_of_lt h)
  simp [drain, h1, h2]

theorem drainBytes_self (N : Nat) (buf : Nat → Nat) (s : Nat) :
    drainBytes N buf s s = [] := by
  simp [drainBytes, drain_self]

theorem drainBytes_of_lt (N : Nat) (buf : Nat → Nat) {start endv : Nat}
    (h : start < endv) :
    drainBytes N buf start endv =
      (List.range (endv - start)).map (fun i => buf (start + i)) := by
  simp [drainBytes, drain_of_lt N h, spanBytes, uart_transmit]

theorem drainBytes_of_gt (N : Nat) (buf : Nat → Nat) {start endv : Nat}
    (h : endv < start) :
    drainBytes N buf start endv =
      (List.range (N - start)).map (fun i => buf (start + i)) ++
        (List.range endv).map buf := by
  simp [drainBytes, drain_of_gt N h, spanBytes, uart_transmit]

/-! ### Claim theorems -/

/-- C2: for every `start < current_end` (both in `[0, N)`), drain emits
exactly one contiguous span, namely the bytes at offsets
`[start, current_end)`, of length `current_end - start`. -/
theorem C2_single_span (N : Nat) (buf : Nat → Nat) (start endv : Nat)
    (h : start < endv) (he : endv < N) :
    (drain N start endv).1 = [(start, endv - start)] ∧
    drainBytes N buf start endv =
      (List.range (endv - start)).map (fun i => buf (start + i)) ∧
    (drainBytes N buf start endv).length = endv - start := by
  refine ⟨?_, drainBytes_of_lt N buf h, ?_⟩
  · simp [drain_of_lt N h]
  · simp [drainBytes_of_lt N buf h]

/-- C2 witness: with `N = 8`, `start = 2`, `current_end = 6` drain emits
the single span `[2, 6)` of `4` bytes. -/
theorem C2_single_span_witness :
    (drain 8 2 6).1 = [(2, 6 - 2)] ∧
    drainBytes 8 (fun i => i) 2 6 =
      (List.range (6 - 2)).map (fun i => (fun j : Nat => j) (2 + i)) ∧
    (drainBytes 8 (fun i => i) 2 6).length = 6 - 2 :=
  C2_single_span 8 (fun i => i) 2 6 (by decide) (by decide)

/-- C3: for every `start > current_end` (both in `[0, N)`), drain emits
exactly two contiguous spans, in order: first the bytes at offsets
`[start, N)`, then the bytes at offsets `[0, current_end)`. -/
theorem C3_wrap_two_spans (N : Nat) (buf : Nat → Nat) (start endv : Nat)
    (h : endv < start) (hs : start < N) :
    (drain N start endv).1 = [(start, N - start), (0, endv)] ∧
    drainBytes N buf start endv =
      (List.range (N - start)).map (fun i => buf (start + i)) ++
        (List.range endv).map buf ∧
    (drainBytes N buf start endv).length = (N - start) + endv := by
  refine ⟨?_, drainBytes_of_gt N buf h, ?_⟩
  · simp [drain_of_gt N h]
  · simp [drainBytes_of_gt N buf h]

/-- C3 witness: with `N = 8`, `start = 6`, `current_end = 2` drain emits
the span `[6, 8)` followed by the span `[0, 2)`, `4` bytes total. -/
theorem C3_wrap_two_spans_witness :
    ((drain 8 6 2).1 = [(6, 8 - 6), (0, 2)] ∧
      drainBytes 8 (fun i => i) 6 2 =
        (List.range (8 - 6)).map (fun i => (fun j : Nat => j) (6 + i)) ++
          (List.range 2).map (fun j : Nat => j) ∧
      (drainBytes 8 (fun i => i) 6 2).length = (8 - 6) + 2) ∧
    (8 - 6) + 2 = 4 :=
  ⟨C3_wrap_two_spans 8 (fun i => i) 6 2 (by decide) (by decide), by decide⟩

/-- C4: if `start == current_end`, drain emits no span (hence performs
no sink call and emits no byte) and leaves `start` unchanged. -/
theorem C4_noop (N : Nat) (buf : Nat → Nat) (start : Nat) :
    drain N start start = ([], start) ∧ drainBytes N buf start start = [] :=
  ⟨drain_self N start, drainBytes_self N buf start⟩

/-- C5: after every drain invocation, in every branch, the retained
`start` equals the `current_end` passed in; hence `start` stays in
`[0, N)` whenever the sampled `current_end` is in `[0, N)`. -/
theorem C5_start_advances (N start endv : Nat) :
    (drain N start endv).2 = endv ∧
    (endv < N → (drain N start endv).2 < N) := by
  have h : (drain N start endv).2 = endv := by
    rcases Nat.lt_trichotomy start endv with h | h | h
    · simp [drain_of_lt N h]
    · subst h; simp [drain_self]
    · simp [drain_of_gt N h]
  exact ⟨h, fun he => by rw [h]; exact he⟩

/-- C5 witness at `N = 8`, `start = 3`, `current_end = 5`. -/
theorem C5_start_advances_witness :
    (drain 8 3 5).2 = 5 ∧ (5 < 8 → (drain 8 3 5).2 < 8) :=
  C5_start_advances 8 3 5

/-- C6: two successive drains with the same `current_end` value: the
second call emits nothing (no span, no byte) because the first advanced
`start` to `current_end`. -/
theorem C6_repeated_tick (N : Nat) (buf : Nat → Nat) (start endv : Nat) :
    (drain N (drain N start endv).2 endv).1 = [] ∧
    drainBytes N buf (drain N start endv).2 endv = [] := by
  have h : (drain N start endv).2 = endv := by
    rcases Nat.lt_trichotomy start endv with h | h | h
    · simp [drain_of_lt N h]
    · subst h; simp [drain_self]
    · simp [drain_of_gt N h]
  rw [h]
  exact ⟨by simp [drain_self], drainBytes_self N buf endv⟩

/-- C7: a full lap of exactly `N` bytes makes the sampled `current_end`
equal to the retained `start` again, so drain emits nothing: the
full-buffer case is indistinguishable from the no-new-data case and the
`N` bytes are silently lost. -/
theorem C7_full_lap_lost (N : Nat) (buf : Nat → Nat) (start : Nat)
    (hs : start < N) :
    (start + N) % N = start ∧
    drain N start ((start + N) % N) = ([], start) ∧
    drainBytes N buf start ((start + N) % N) = [] := by
  have h : (start + N) % N = start := by
    rw [Nat.add_mod_right, Nat.mod_eq_of_lt hs]
  exact ⟨h, by rw [h]; exact drain_self N start,
    by rw [h]; exact drainBytes_self N buf start⟩

/-- C7 witness at `N = 8`, `start = 3`: after `8` written bytes the
sampled offset is again `3` and the drain emits nothing. -/
theorem C7_full_lap_lost_witness :
    (3 + 8) % 8 = 3 ∧
    drain 8 3 ((3 + 8) % 8) = ([], 3) ∧
    drainBytes 8 (fun i => i) 3 ((3 + 8) % 8) = [] :=
  C7_full_lap_lost 8 (fun i => i) 3 (by decide)

/-- C1 counterexample: the claim says every write sequence of total
length `L ≤ N` issued between two drains is emitted as exactly `L`
bytes.  At `N = 8`, `start = 0`, `L = 8` (a full lap) the sampled offset
is `(0 + 8) % 8 = 0`, the handler takes the `start == end` branch and
emits `0` bytes, not `8`. -/
theorem C1_counterexample :
    ¬ (drainBytes 8 (fun i => i) 0 ((0 + 8) % 8)).length = 8 := by decide

/-- C1 (amended): for every `start` and `current_end` in `[0, N)`, one
drain invocation emits exactly the bytes of the circular half-open
region from `start` to `current_end`, in write order, in at most two
spans; and every write sequence of total length `L < N` (strictly less
than capacity — at `L = N` the drain emits nothing) is emitted as
exactly `L` bytes. -/
theorem C1_region_emission (N : Nat) (buf : Nat → Nat) (start endv : Nat)
    (hs : start < N) (he : endv < N) :
    drainBytes N buf start endv = circularRegionBytes N buf start endv ∧
    (drain N start endv).1.length ≤ 2 ∧
    ∀ L : Nat, L < N → (drainBytes N buf start ((start + L) % N)).length = L := by
  refine ⟨?_, ?_, ?_⟩
  · rcases Nat.lt_trichotomy start endv with h | h | h
    · rw [drainBytes_of_lt N buf h, circularRegionBytes,
        if_pos (Nat.le_of_lt h)]
    · subst h
      rw [drainBytes_self, circularRegionBytes, if_pos (Nat.le_refl start)]
      simp
    · rw [drainBytes_of_gt N buf h, circularRegionBytes,
        if_neg (Nat.not_le.mpr h)]
  · rcases Nat.lt_trichotomy start endv with h | h | h
    · simp [drain_of_lt N h]
    · subst h; simp [drain_self]
    · simp [drain_of_gt N h]
  · intro L hL
    by_cases hc : start + L < N
    · have hm : (start + L) % N = start + L := Nat.mod_eq_of_lt hc
      rcases Nat.eq_zero_or_pos L with h0 | hpos
      · subst h0
        rw [Nat.add_zero, Nat.mod_eq_of_lt hs, drainBytes_self]
        rfl
      · have hlt : start < start + L := Nat.lt_add_of_pos_right hpos
        rw [hm, drainBytes_of_lt N buf hlt]
        simp
    · have hm : (start + L) % N = start + L - N := by
        rw [Nat.mod_eq_sub_mod (by omega), Nat.mod_eq_of_lt (by omega)]
      have hgt : start + L - N < start := by omega
      rw [hm, drainBytes_of_gt N buf hgt]
      simp
      omega

/-- C1 witness at `N = 8`, `start = 2`, `current_end = 6`. -/
theorem C1_region_emission_witness :
    drainBytes 8 (fun i => i) 2 6 = circularRegionBytes 8 (fun i => i) 2 6 ∧
    (drain 8 2 6).1.length ≤ 2 ∧
    ∀ L : Nat, L < 8 →
      (drainBytes 8 (fun i => i) 2 ((2 + L) % 8)).length = L :=
  C1_region_emission 8 (fun i => i) 2 6 (by decide) (by decide)

/-- C8: for every `start` and `current_end` in `[0, N)`, every buffer
offset a drain invocation reads lies in `[0, N)`, and the number of
bytes emitted is at most `N`, regardless of how much the producer wrote
since the previous drain. -/
theorem C8_reads_in_bounds (N : Nat) (buf : Nat → Nat) (start endv : Nat)
    (hs : start < N) (he : endv < N) :
    (∀ i ∈ drainReadOffsets N start endv, i < N) ∧
    (drainBytes N buf start endv).length ≤ N := by
  constructor
  · intro i hi
    rcases Nat.lt_trichotomy start endv with h | h | h
    · simp [drainReadOffsets, drain_of_lt N h] at hi
      omega
    · subst h
      simp [drainReadOffsets, drain_self] at hi
    · simp [drainReadOffsets, drain_of_gt N h] at hi
      rcases hi with ⟨j, hj, rfl⟩ | hj <;> omega
  · rcases Nat.lt_trichotomy start endv with h | h | h
    · rw [drainBytes_of_lt N buf h]; simp; omega
    · subst h; rw [drainBytes_self]; simp
    · rw [drainBytes_of_gt N buf h]; simp; omega

/-- C8 witness at `N = 8`, `start = 6`, `current_end = 2`. -/
theorem C8_reads_in_bounds_witness :
    (∀ i ∈ drainReadOffsets 8 6 2, i < 8) ∧
    (drainBytes 8 (fun i => i) 6 2).length ≤ 8 :=
  C8_reads_in_bounds 8 (fun i => i) 6 2 (by decide) (by decide)

/-- C9: a drain invocation (`SysTick_Handler`) leaves the ring-buffer
contents and the DMA write-offset counter untouched: the only state it
mutates is its own retained `start`, which it sets to the drain result;
the span trace is exactly what the drain logic computes. -/
theorem C9_frame (N : Nat) (s : SysState) :
    (SysTick_Handler N s).1.ring_buffer = s.ring_buffer ∧
    (SysTick_Handler N s).1.transferred = s.transferred ∧
    (SysTick_Handler N s).1.start = (drain N s.start s.transferred).2 ∧
    (SysTick_Handler N s).2 = (drain N s.start s.transferred).1 :=
  ⟨rfl, rfl, rfl, rfl⟩

/-- C10: `uart_transmit` emits exactly `len` bytes, `data 0` through
`data (len - 1)`, in index order, and emits nothing when `len = 0`; in
the wrapped branch with `current_end = 0` and `start > 0` the second
span is `(0, 0)`, contributing no byte, so the drain emits exactly the
`N - start` bytes of `[start, N)` and nothing more. -/
theorem C10_empty_second_span (N : Nat) (buf : Nat → Nat) (start : Nat)
    (h0 : 0 < start) (hs : start < N) :
    (∀ data : Nat → Nat, uart_transmit data 0 = []) ∧
    (∀ (data : Nat → Nat) (len : Nat),
      (uart_transmit data len).length = len) ∧
    (∀ (data : Nat → Nat) (len i : Nat), i < len →
      (uart_transmit data len)[i]? = some (data i)) ∧
    (drain N start 0).1 = [(start, N - start), (0, 0)] ∧
    spanBytes buf (0, 0) = [] ∧
    drainBytes N buf start 0 =
      (List.range (N - start)).map (fun i => buf (start + i)) ∧
    (drainBytes N buf start 0).length = N - start := by
  refine ⟨fun data => rfl, fun data len => by simp [uart_transmit],
    fun data len i hi => ?_, ?_, rfl, ?_, ?_⟩
  · simp [uart_transmit, hi]
  · simp [drain_of_gt N h0]
  · rw [drainBytes_of_gt N buf h0]; simp
  · rw [drainBytes_of_gt N buf h0]; simp

/-- C10 witness at `N = 8`, `start = 6`, `current_end = 0`. -/
theorem C10_empty_second_span_witness :
    (∀ data : Nat → Nat, uart_transmit data 0 = []) ∧
    (∀ (data : Nat → Nat) (len : Nat),
      (uart_transmit data len).length = len) ∧
    (∀ (data : Nat → Nat) (len i : Nat), i < len →
      (uart_transmit data len)[i]? = some (data i)) ∧
    (drain 8 6 0).1 = [(6, 8 - 6), (0, 0)] ∧
    spanBytes (fun i => i) (0, 0) = [] ∧
    drainBytes 8 (fun i => i) 6 0 =
      (List.range (8 - 6)).map (fun i => (fun j : Nat => j) (6 + i)) ∧
    (drainBytes 8 (fun i => i) 6 0).length = 8 - 6 :=
  C10_empty_second_span 8 (fun i => i) 6 (by decide) (by decide)

end DmaRingBuffer
